import Mathlib

/-!
Verification of the sheet-backed vacation store of `bot.py`.

The spreadsheet is modelled as an ordered list of rows, each row a list of
cell strings; row 1 (list index 0) is the header row.  The gspread handle
`sheet` is modelled as `Option Sheet`: `none` is the state where the
connection was never established.  The helper functions `find_row`,
`set_vacation`, `remove_vacation`, `get_vacation` and `list_vacations` are
translated directly from the source; the raising branches
(`raise Exception("Database not connected")`) become `Except.error`.
The `/vacation list` reply formatting of `vacation_list` is embedded as
`vacation_list_message` over the fetched records.
-/

set_option maxRecDepth 8000

/-- One spreadsheet row: its cell values left to right. -/
abbrev Row := List String

/-- The whole grid, row 1 first. -/
abbrev Sheet := List Row

/-- The record shape returned by `get_vacation` / `list_vacations`:
`{"username": ..., "start": ..., "end": ...}`. -/
structure VacationRecord where
  username : String
  start : String
  «end» : String
deriving DecidableEq, Repr

/-- Model of Python's `str.lower()` as used by `find_row`, mapped over the characters. -/
def lower (s : String) : String := String.mk (s.data.map Char.toLower)

/-- Model of `sheet.col_values(1)`: the first cell of every row (a missing cell reads
as the empty string). -/
def col_values1 (rows : Sheet) : List String :=
  rows.map (fun r => r.headD "")

/-- The scan loop of `find_row`: `enumerate(usernames, start=1)` together with
the test `if name and name.lower() == username.lower()`. -/
def findAux (names : List String) (username : String) (idx : Nat) : Option Nat :=
  match names with
  | [] => none
  | name :: rest =>
    if name ≠ "" ∧ lower name = lower username then some idx
    else findAux rest username (idx + 1)

/-- Model of `find_row(username)`: `None` when no sheet, else the 1-based index of the
first row whose column-A value is non-empty and matches case-insensitively. -/
def find_row (sheet : Option Sheet) (username : String) : Option Nat :=
  match sheet with
  | none => none
  | some rows => findAux (col_values1 rows) username 1

/-- Write `v` into 0-based cell position `i` of one row, padding the row with
empty cells when it is shorter, as a spreadsheet cell update does. -/
def setPad (row : Row) (i : Nat) (v : String) : Row :=
  (row ++ List.replicate (i + 1 - row.length) "").set i v

/-- Model of `sheet.update_cell(r, c, v)` with 1-based row `r` and column `c`. -/
def update_cell (rows : Sheet) (r c : Nat) (v : String) : Sheet :=
  rows.set (r - 1) (setPad (rows.getD (r - 1) []) (c - 1) v)

/-- Model of `sheet.append_row(row)`. -/
def append_row (rows : Sheet) (row : Row) : Sheet := rows ++ [row]

/-- Model of `set_vacation`: raises "Database not connected" without a sheet; appends a
fresh row when `find_row` misses, else overwrites cells 2 and 3 of the found
row. -/
def set_vacation (sheet : Option Sheet) (username start_date end_date : String) :
    Except String Sheet :=
  match sheet with
  | none => Except.error "Database not connected"
  | some rows =>
    match find_row (some rows) username with
    | none => Except.ok (append_row rows [username, start_date, end_date])
    | some r => Except.ok (update_cell (update_cell rows r 2 start_date) r 3 end_date)

/-- Model of `sheet.delete_rows(r)` for a single 1-based row index. -/
def delete_rows (rows : Sheet) (r : Nat) : Sheet := rows.eraseIdx (r - 1)

/-- Model of `remove_vacation`: raises without a sheet; `False` when `find_row` misses,
else deletes the found row and returns `True`. -/
def remove_vacation (sheet : Option Sheet) (username : String) :
    Except String (Bool × Sheet) :=
  match sheet with
  | none => Except.error "Database not connected"
  | some rows =>
    match find_row (some rows) username with
    | none => Except.ok (false, rows)
    | some r => Except.ok (true, delete_rows rows r)

/-- Model of `sheet.row_values(r)` for a 1-based row index. -/
def row_values (rows : Sheet) (r : Nat) : Row := rows.getD (r - 1) []

/-- Model of `get_vacation`: `None` without a sheet or on a miss; `None` again when the
found row has fewer than three cells, else the first three cells as a record. -/
def get_vacation (sheet : Option Sheet) (username : String) : Option VacationRecord :=
  match sheet with
  | none => none
  | some rows =>
    match find_row (some rows) username with
    | none => none
    | some r =>
      let data := row_values rows r
      if data.length < 3 then none
      else some ⟨data.getD 0 "", data.getD 1 "", data.getD 2 ""⟩

/-- The `for row in rows[1:]` loop body of `list_vacations`:
`if len(row) >= 3 and row[0]` appends the first three cells as a record. -/
def list_loop : Sheet → List VacationRecord
  | [] => []
  | row :: rest =>
    if 3 ≤ row.length ∧ row.headD "" ≠ "" then
      ⟨row.getD 0 "", row.getD 1 "", row.getD 2 ""⟩ :: list_loop rest
    else list_loop rest

/-- Model of `list_vacations`: empty without a sheet or on an empty grid, else the loop
over every row after the header. -/
def list_vacations (sheet : Option Sheet) : List VacationRecord :=
  match sheet with
  | none => []
  | some rows =>
    match rows with
    | [] => []
    | _ :: tail => list_loop tail

/-- One line of the `/vacation list` reply; the byte sequences of the literal
are exactly those of the f-string in `vacation_list`. -/
def render_line (v : VacationRecord) : String :=
  "‚Ä¢ **" ++ v.username ++ "**: `" ++ v.start ++ "` ‚Üí `" ++ v.«end» ++ "`"

/-- The suffix appended by the truncating branch of `vacation_list`. -/
def truncation_marker : String := "\u000A‚Ä¶ (and more)"

/-- The reply of `vacation_list` when the store holds no records. -/
def empty_reply : String := "üì≠ No vacations recorded yet."

/-- The message `vacation_list` sends for a fetched record list: the joined
lines, truncated to the first 40 lines plus a marker when the joined text is
longer than 1900 characters. -/
def vacation_list_message (vacations : List VacationRecord) : String :=
  if vacations = [] then empty_reply
  else
    let lines := vacations.map render_line
    let message := String.intercalate "\u000A" lines
    if message.length > 1900 then
      String.intercalate "\u000A" (lines.take 40) ++ truncation_marker
    else message

instance {ε α : Type} [DecidableEq ε] [DecidableEq α] : DecidableEq (Except ε α)
  | .error e, .error f => decidable_of_iff (e = f) (by simp)
  | .error _, .ok _ => .isFalse (by simp)
  | .ok _, .error _ => .isFalse (by simp)
  | .ok a, .ok b => decidable_of_iff (a = b) (by simp)

/-- Cell `c` of row `r` (both 1-based), reading absent cells as empty. -/
def cellD (rows : Sheet) (r c : Nat) : String :=
  (rows.getD (r - 1) []).getD (c - 1) ""

/-- Does a row's first cell match `username` the way `find_row` matches? -/
def rowMatches (row : Row) (username : String) : Prop :=
  row.headD "" ≠ "" ∧ lower (row.headD "") = lower username

instance (row : Row) (username : String) : Decidable (rowMatches row username) := by
  unfold rowMatches
  infer_instance

/-- Column A of the data rows (everything after the header row). -/
def dataNames (rows : Sheet) : List String := (col_values1 rows).drop 1

/-- The spec invariant: at most one data row per username, case-insensitively.
Stated as: the non-empty first cells of the data rows are pairwise distinct
after lowering. -/
def SheetUniq (rows : Sheet) : Prop :=
  (dataNames rows).Pairwise (fun a b => a ≠ "" → b ≠ "" → lower a ≠ lower b)

instance (rows : Sheet) : Decidable (SheetUniq rows) := by
  unfold SheetUniq
  exact List.instDecidablePairwise _

/-! Helper lemmas about list access. -/

theorem headD_eq_getD {α : Type} (l : List α) (d : α) : l.headD d = l.getD 0 d := by
  cases l <;> rfl

theorem getD_set_self {α : Type} (l : List α) (i : Nat) (a d : α) (h : i < l.length) :
    (l.set i a).getD i d = a := by
  rw [List.getD_eq_getElem?_getD, List.getElem?_set_self h]
  rfl

theorem getD_set_ne {α : Type} (l : List α) (i j : Nat) (a d : α) (h : i ≠ j) :
    (l.set i a).getD j d = l.getD j d := by
  rw [List.getD_eq_getElem?_getD, List.getElem?_set_ne h, ← List.getD_eq_getElem?_getD]

theorem getD_pad {α : Type} (l : List α) (n j : Nat) (d : α) :
    (l ++ List.replicate n d).getD j d = l.getD j d := by
  rcases Nat.lt_or_ge j l.length with h | h
  · exact List.getD_append l _ d j h
  · rw [List.getD_append_right l _ d j h]
    rw [List.getD_eq_getElem?_getD, List.getElem?_replicate]
    rw [List.getD_eq_getElem?_getD l, List.getElem?_eq_none h]
    split <;> rfl

theorem set_getD_self {α : Type} (l : List α) (i : Nat) (d : α) (h : i < l.length) :
    l.set i (l.getD i d) = l := by
  apply List.ext_getElem?
  intro n
  rw [List.getElem?_set]
  by_cases he : i = n
  · subst he
    rw [if_pos rfl, if_pos h, List.getD_eq_getElem l d h, List.getElem?_eq_getElem h]
  · rw [if_neg he]

theorem getD_append_self_length {α : Type} (l : List α) (a d : α) :
    (l ++ [a]).getD l.length d = a := by
  rw [List.getD_append_right l _ d _ (Nat.le_refl _), Nat.sub_self]
  rfl

/-! Helper lemmas about `setPad`. -/

theorem setPad_length (row : Row) (i : Nat) (v : String) :
    (setPad row i v).length = max row.length (i + 1) := by
  simp only [setPad, List.length_set, List.length_append, List.length_replicate]
  omega

theorem setPad_getD_self (row : Row) (i : Nat) (v : String) :
    (setPad row i v).getD i "" = v := by
  unfold setPad
  apply getD_set_self
  simp only [List.length_append, List.length_replicate]
  omega

theorem setPad_getD_ne (row : Row) (i j : Nat) (v : String) (h : i ≠ j) :
    (setPad row i v).getD j "" = row.getD j "" := by
  unfold setPad
  rw [getD_set_ne _ _ _ _ _ h, getD_pad]

/-! Helper lemmas about `col_values1`. -/

theorem col_values1_length (rows : Sheet) : (col_values1 rows).length = rows.length := by
  simp [col_values1]

theorem col_values1_getD (rows : Sheet) (j : Nat) :
    (col_values1 rows).getD j "" = (rows.getD j []).headD "" := by
  induction rows generalizing j with
  | nil => cases j <;> rfl
  | cons r rest ih =>
    cases j with
    | zero => rfl
    | succ k => simpa [col_values1] using ih k

theorem col_values1_set (rows : Sheet) (i : Nat) (row : Row) :
    col_values1 (rows.set i row) = (col_values1 rows).set i (row.headD "") := by
  simp [col_values1, List.map_set]

theorem col_values1_append (rows more : Sheet) :
    col_values1 (rows ++ more) = col_values1 rows ++ col_values1 more := by
  simp [col_values1]

theorem col_values1_update_cell (rows : Sheet) (r c : Nat) (v : String)
    (hr : r - 1 < rows.length) (hc : 2 ≤ c) :
    col_values1 (update_cell rows r c v) = col_values1 rows := by
  unfold update_cell
  rw [col_values1_set]
  have h1 : (setPad (rows.getD (r - 1) []) (c - 1) v).headD "" =
      (rows.getD (r - 1) []).headD "" := by
    rw [headD_eq_getD, headD_eq_getD]
    exact setPad_getD_ne _ _ _ _ (by omega)
  rw [h1, ← col_values1_getD]
  exact set_getD_self _ _ _ (by rw [col_values1_length]; exact hr)

/-! Helper lemmas about the `find_row` scan. -/

theorem findAux_none_iff (names : List String) (u : String) (i : Nat) :
    findAux names u i = none ↔ ∀ n ∈ names, ¬(n ≠ "" ∧ lower n = lower u) := by
  induction names generalizing i with
  | nil => simp [findAux]
  | cons a rest ih =>
    by_cases h : a ≠ "" ∧ lower a = lower u
    · simp only [findAux, if_pos h]
      simp [h]
    · simp only [findAux, if_neg h]
      rw [ih (i + 1)]
      constructor
      · intro hall n hn
        rcases List.mem_cons.mp hn with rfl | hmem
        · exact h
        · exact hall n hmem
      · intro hall n hn
        exact hall n (List.mem_cons_of_mem a hn)

theorem findAux_some_spec (names : List String) (u : String) (i r : Nat)
    (h : findAux names u i = some r) :
    i ≤ r ∧ r - i < names.length ∧
    (names.getD (r - i) "" ≠ "" ∧ lower (names.getD (r - i) "") = lower u) ∧
    ∀ j, j < r - i → ¬(names.getD j "" ≠ "" ∧ lower (names.getD j "") = lower u) := by
  induction names generalizing i with
  | nil => simp [findAux] at h
  | cons a rest ih =>
    by_cases hc : a ≠ "" ∧ lower a = lower u
    · rw [findAux, if_pos hc] at h
      have hr : r = i := by
        have := Option.some.inj h
        omega
      subst hr
      refine ⟨Nat.le_refl r, ?_, ?_, ?_⟩
      · simp [Nat.sub_self]
      · simpa [Nat.sub_self] using hc
      · intro j hj
        omega
    · rw [findAux, if_neg hc] at h
      obtain ⟨h1, h2, h3, h4⟩ := ih (i + 1) h
      have hsucc : r - i = (r - (i + 1)) + 1 := by omega
      refine ⟨by omega, ?_, ?_, ?_⟩
      · simp only [List.length_cons]
        omega
      · rw [hsucc]
        simpa using h3
      · intro j hj
        cases j with
        | zero => simpa using hc
        | succ k =>
          have hk : k < r - (i + 1) := by omega
          simpa using h4 k hk

theorem findAux_append_none (names more : List String) (u : String) (i : Nat)
    (h : findAux names u i = none) :
    findAux (names ++ more) u i = findAux more u (i + names.length) := by
  induction names generalizing i with
  | nil => simp [findAux]
  | cons a rest ih =>
    by_cases hc : a ≠ "" ∧ lower a = lower u
    · rw [findAux, if_pos hc] at h
      exact absurd h (by simp)
    · rw [findAux, if_neg hc] at h
      rw [List.cons_append, findAux, if_neg hc, ih (i + 1) h]
      have e : i + 1 + rest.length = i + (a :: rest).length := by
        simp only [List.length_cons]
        omega
      rw [e]

theorem find_row_some_range (rows : Sheet) (u : String) (r : Nat)
    (h : find_row (some rows) u = some r) : 1 ≤ r ∧ r - 1 < rows.length := by
  unfold find_row at h
  obtain ⟨h1, h2, _, _⟩ := findAux_some_spec _ _ _ _ h
  rw [col_values1_length] at h2
  exact ⟨h1, h2⟩

theorem find_row_some_matched (rows : Sheet) (u : String) (r : Nat)
    (h : find_row (some rows) u = some r) : rowMatches (rows.getD (r - 1) []) u := by
  unfold find_row at h
  obtain ⟨_, _, h3, _⟩ := findAux_some_spec _ _ _ _ h
  rw [col_values1_getD] at h3
  exact h3

theorem find_row_none_iff (rows : Sheet) (u : String) :
    find_row (some rows) u = none ↔ ∀ row ∈ rows, ¬ rowMatches row u := by
  unfold find_row
  rw [findAux_none_iff]
  constructor
  · intro hall row hrow
    have : row.headD "" ∈ col_values1 rows := List.mem_map_of_mem _ hrow
    exact hall _ this
  · intro hall n hn
    obtain ⟨row, hrow, rfl⟩ := List.mem_map.mp hn
    exact hall row hrow

theorem find_row_congr (rows rows' : Sheet) (u : String)
    (h : col_values1 rows = col_values1 rows') :
    find_row (some rows) u = find_row (some rows') u := by
  show findAux (col_values1 rows) u 1 = findAux (col_values1 rows') u 1
  rw [h]

/-! Claim theorems. -/

/-- C1 (code bug): the claim — `find` only ever returns data rows and the
header row is excluded from every lookup — is the spec's stated invariant,
but `find_row` enumerates `col_values(1)` from row 1, so the header row
itself is matched: on a sheet with the standard `Name | Start | End` header,
looking up "NAME" returns row 1, and `get_vacation "name"` returns the
header cells as a record. -/
theorem find_row_returns_header_row :
    find_row (some [["Name", "Start", "End"], ["alice", "2025-01-01", "2025-01-02"]])
      "NAME" = some 1 ∧
    get_vacation (some [["Name", "Start", "End"], ["alice", "2025-01-01", "2025-01-02"]])
      "name" = some ⟨"Name", "Start", "End"⟩ := by
  decide

/-- C6: when the store connection was never established, `find_row`,
`get_vacation` and `list_vacations` return their empty/not-found results,
while `set_vacation` and `remove_vacation` fail with the store-unavailable
error, which no ok (not-found included) result equals. -/
theorem store_unavailable_behavior : ∀ (u s e : String),
    find_row none u = none ∧
    get_vacation none u = none ∧
    list_vacations none = [] ∧
    set_vacation none u s e = Except.error "Database not connected" ∧
    remove_vacation none u = Except.error "Database not connected" ∧
    (∀ rows2 : Sheet, set_vacation none u s e ≠ Except.ok rows2) ∧
    (∀ (b : Bool) (rows2 : Sheet), remove_vacation none u ≠ Except.ok (b, rows2)) := by
  intro u s e
  refine ⟨rfl, rfl, rfl, rfl, rfl, ?_, ?_⟩
  · intro rows2 hcontra
    simp [set_vacation] at hcontra
  · intro b rows2 hcontra
    simp [remove_vacation] at hcontra

/-- C4: `get_vacation` returns not-found exactly when `find_row` misses or the
found row has fewer than three cells, and otherwise returns the found row's
first three cells as the record. -/
theorem get_vacation_spec : ∀ (rows : Sheet) (u : String),
    (find_row (some rows) u = none → get_vacation (some rows) u = none) ∧
    ∀ r, find_row (some rows) u = some r →
      ((row_values rows r).length < 3 → get_vacation (some rows) u = none) ∧
      (3 ≤ (row_values rows r).length →
        get_vacation (some rows) u =
          some ⟨(row_values rows r).getD 0 "", (row_values rows r).getD 1 "",
                (row_values rows r).getD 2 ""⟩) := by
  intro rows u
  constructor
  · intro h
    simp [get_vacation, h]
  · intro r h
    constructor
    · intro hlen
      simp [get_vacation, h, hlen]
    · intro hlen
      simp [get_vacation, h, Nat.not_lt.mpr hlen]

/-- C4 witness: a concrete hit with a three-cell row. -/
theorem get_vacation_spec_witness :
    get_vacation (some [["Name", "Start", "End"], ["bob", "2025-01-01", "2025-01-05"]])
      "bob" = some ⟨"bob", "2025-01-01", "2025-01-05"⟩ :=
  ((get_vacation_spec [["Name", "Start", "End"], ["bob", "2025-01-01", "2025-01-05"]]
      "bob").2 2 (by decide)).2 (by decide)

theorem list_loop_eq_filterMap (rows : Sheet) :
    list_loop rows = rows.filterMap (fun row =>
      if 3 ≤ row.length ∧ row.headD "" ≠ "" then
        some ⟨row.getD 0 "", row.getD 1 "", row.getD 2 ""⟩
      else none) := by
  induction rows with
  | nil => rfl
  | cons row rest ih =>
    simp only [list_loop, List.filterMap_cons]
    by_cases h : 3 ≤ row.length ∧ row.headD "" ≠ ""
    · rw [if_pos h, if_pos h, ih]
    · rw [if_neg h, if_neg h, ih]

/-- C5: `list_vacations` returns exactly the post-header rows having at least
three cells and a non-empty first cell, as records in store order; on the
spec's example store (header + two data rows + one blank row) it returns the
two data records in insertion order. -/
theorem list_vacations_spec : (∀ rows : Sheet,
    list_vacations (some rows) = (rows.drop 1).filterMap (fun row =>
      if 3 ≤ row.length ∧ row.headD "" ≠ "" then
        some ⟨row.getD 0 "", row.getD 1 "", row.getD 2 ""⟩
      else none)) ∧
    list_vacations (some [["Name", "Start", "End"], ["alice", "2025-01-01", "2025-01-02"],
        ["bob", "2025-02-01", "2025-02-03"], ["", "", ""]]) =
      [⟨"alice", "2025-01-01", "2025-01-02"⟩, ⟨"bob", "2025-02-01", "2025-02-03"⟩] := by
  constructor
  · intro rows
    cases rows with
    | nil => rfl
    | cons h t => exact list_loop_eq_filterMap t
  · decide

/-- C2: `set_vacation` appends exactly `[username, start, end]` when `find_row`
misses; on a hit it returns a sheet of the same length in which every other
row is untouched, and in the found row the username cell (cell 1) and every
cell beyond cell 3 are untouched while cells 2 and 3 now hold the start and
end arguments. -/
theorem set_vacation_spec : ∀ (rows : Sheet) (u s e : String),
    (find_row (some rows) u = none →
      set_vacation (some rows) u s e = Except.ok (rows ++ [[u, s, e]])) ∧
    ∀ r, find_row (some rows) u = some r →
      ∃ rows2, set_vacation (some rows) u s e = Except.ok rows2 ∧
        rows2.length = rows.length ∧
        (∀ j, j ≠ r - 1 → rows2.getD j [] = rows.getD j []) ∧
        cellD rows2 r 1 = cellD rows r 1 ∧
        cellD rows2 r 2 = s ∧
        cellD rows2 r 3 = e ∧
        ∀ c, 4 ≤ c → cellD rows2 r c = cellD rows r c := by
  intro rows u s e
  constructor
  · intro h
    simp [set_vacation, h, append_row]
  · intro r h
    obtain ⟨hr1, hr2⟩ := find_row_some_range rows u r h
    have hform : update_cell (update_cell rows r 2 s) r 3 e =
        rows.set (r - 1) (setPad (setPad (rows.getD (r - 1) []) 1 s) 2 e) := by
      show (rows.set (r - 1) (setPad (rows.getD (r - 1) []) 1 s)).set (r - 1)
          (setPad ((rows.set (r - 1) (setPad (rows.getD (r - 1) []) 1 s)).getD (r - 1) [])
            2 e) = _
      rw [getD_set_self _ _ _ _ hr2, List.set_set]
    refine ⟨update_cell (update_cell rows r 2 s) r 3 e, by simp [set_vacation, h],
      ?_, ?_, ?_, ?_, ?_, ?_⟩
    · rw [hform]
      simp
    · intro j hj
      rw [hform]
      exact getD_set_ne _ _ _ _ _ (fun he => hj he.symm)
    · show ((update_cell (update_cell rows r 2 s) r 3 e).getD (r - 1) []).getD 0 "" =
        (rows.getD (r - 1) []).getD 0 ""
      rw [hform, getD_set_self _ _ _ _ hr2, setPad_getD_ne _ _ _ _ (by omega),
        setPad_getD_ne _ _ _ _ (by omega)]
    · show ((update_cell (update_cell rows r 2 s) r 3 e).getD (r - 1) []).getD 1 "" = s
      rw [hform, getD_set_self _ _ _ _ hr2, setPad_getD_ne _ _ _ _ (by omega),
        setPad_getD_self]
    · show ((update_cell (update_cell rows r 2 s) r 3 e).getD (r - 1) []).getD 2 "" = e
      rw [hform, getD_set_self _ _ _ _ hr2, setPad_getD_self]
    · intro c hc
      show ((update_cell (update_cell rows r 2 s) r 3 e).getD (r - 1) []).getD (c - 1) "" =
        (rows.getD (r - 1) []).getD (c - 1) ""
      rw [hform, getD_set_self _ _ _ _ hr2, setPad_getD_ne _ _ _ _ (by omega),
        setPad_getD_ne _ _ _ _ (by omega)]

/-- C2 witness: appending to a sheet that has only the header row. -/
theorem set_vacation_spec_witness :
    set_vacation (some [["Name", "Start", "End"]]) "bob" "2025-01-01" "2025-01-05" =
      Except.ok [["Name", "Start", "End"], ["bob", "2025-01-01", "2025-01-05"]] :=
  (set_vacation_spec [["Name", "Start", "End"]] "bob" "2025-01-01" "2025-01-05").1 (by decide)

theorem mem_list_loop (rows : Sheet) (v : VacationRecord) (h : v ∈ list_loop rows) :
    ∃ row ∈ rows, 3 ≤ row.length ∧ row.headD "" ≠ "" ∧ v.username = row.headD "" := by
  induction rows with
  | nil => simp [list_loop] at h
  | cons row rest ih =>
    simp only [list_loop] at h
    by_cases hc : 3 ≤ row.length ∧ row.headD "" ≠ ""
    · rw [if_pos hc] at h
      rcases List.mem_cons.mp h with rfl | hmem
      · exact ⟨row, List.mem_cons_self _ _, hc.1, hc.2, (headD_eq_getD row "").symm⟩
      · obtain ⟨row2, hr2, h1, h2, h3⟩ := ih hmem
        exact ⟨row2, List.mem_cons_of_mem _ hr2, h1, h2, h3⟩
    · rw [if_neg hc] at h
      obtain ⟨row2, hr2, h1, h2, h3⟩ := ih h
      exact ⟨row2, List.mem_cons_of_mem _ hr2, h1, h2, h3⟩

theorem no_match_outside (rows : Sheet) (u : String) (r : Nat) (hr1 : 1 ≤ r)
    (huniq : ∀ j, j < rows.length → j ≠ r - 1 → ¬ rowMatches (rows.getD j []) u) :
    ∀ row ∈ rows.take (r - 1) ++ rows.drop r, ¬ rowMatches row u := by
  intro row hrow
  rcases List.mem_append.mp hrow with hmem | hmem
  · obtain ⟨n, hn, he⟩ := List.mem_iff_getElem.mp hmem
    have hn2 : n < min (r - 1) rows.length := by
      simpa [List.length_take] using hn
    have hnl : n < rows.length := by omega
    have hne : n ≠ r - 1 := by omega
    have hmatch := huniq n hnl hne
    intro hm
    apply hmatch
    rw [List.getD_eq_getElem rows [] hnl]
    rw [List.getElem_take] at he
    rw [he]
    exact hm
  · obtain ⟨n, hn, he⟩ := List.mem_iff_getElem.mp hmem
    have hn2 : n < rows.length - r := by
      simpa [List.length_drop] using hn
    have hnl : r + n < rows.length := by omega
    have hne : r + n ≠ r - 1 := by omega
    have hmatch := huniq (r + n) hnl hne
    intro hm
    apply hmatch
    rw [List.getD_eq_getElem rows [] hnl]
    rw [List.getElem_drop] at he
    rw [he]
    exact hm

/-- C3 counterexample: the claim says a successful `remove(u)` always leaves
`get(u)` not-found, quantified over every store.  On a store holding two rows
for "u", remove deletes only the first and `get_vacation` still returns the
second. -/
theorem remove_vacation_counterexample :
    remove_vacation (some [["Name", "S", "E"], ["u", "a", "b"], ["u", "c", "d"]]) "u" =
      Except.ok (true, [["Name", "S", "E"], ["u", "c", "d"]]) ∧
    get_vacation (some [["Name", "S", "E"], ["u", "c", "d"]]) "u" =
      some ⟨"u", "c", "d"⟩ := by
  decide

/-- C3 (amended): `remove_vacation` returns false leaving the store unchanged
when `find_row` misses, and on a hit deletes exactly the found row (later rows
shift up) and returns true; moreover, when the found row was the only row
whose first cell matches the username case-insensitively, `get_vacation`
afterwards returns not-found and no listed record carries that username. -/
theorem remove_vacation_spec : ∀ (rows : Sheet) (u : String),
    (find_row (some rows) u = none →
      remove_vacation (some rows) u = Except.ok (false, rows)) ∧
    ∀ r, find_row (some rows) u = some r →
      remove_vacation (some rows) u =
        Except.ok (true, rows.take (r - 1) ++ rows.drop r) ∧
      ((∀ j, j < rows.length → j ≠ r - 1 → ¬ rowMatches (rows.getD j []) u) →
        get_vacation (some (rows.take (r - 1) ++ rows.drop r)) u = none ∧
        ∀ v ∈ list_vacations (some (rows.take (r - 1) ++ rows.drop r)),
          lower v.username ≠ lower u) := by
  intro rows u
  constructor
  · intro h
    simp [remove_vacation, h]
  · intro r h
    obtain ⟨hr1, hr2⟩ := find_row_some_range rows u r h
    have herase : delete_rows rows r = rows.take (r - 1) ++ rows.drop r := by
      unfold delete_rows
      rw [List.eraseIdx_eq_take_drop_succ]
      have : r - 1 + 1 = r := by omega
      rw [this]
    constructor
    · simp [remove_vacation, h, herase]
    · intro huniq
      have hnone : find_row (some (rows.take (r - 1) ++ rows.drop r)) u = none :=
        (find_row_none_iff _ u).mpr (no_match_outside rows u r hr1 huniq)
      refine ⟨by simp [get_vacation, hnone], ?_⟩
      intro v hv
      cases hrem : rows.take (r - 1) ++ rows.drop r with
      | nil =>
        rw [hrem] at hv
        simp [list_vacations] at hv
      | cons hd tl =>
        rw [hrem] at hv
        have hv2 : v ∈ list_loop tl := hv
        obtain ⟨row, hrow, _, hne, husr⟩ := mem_list_loop tl v hv2
        have hrow2 : row ∈ rows.take (r - 1) ++ rows.drop r := by
          rw [hrem]
          exact List.mem_cons_of_mem _ hrow
        have hnm := no_match_outside rows u r hr1 huniq row hrow2
        rw [husr]
        intro heq
        exact hnm ⟨hne, heq⟩

/-- C3 witness: removing the sole data row of a concrete store. -/
theorem remove_vacation_spec_witness :
    remove_vacation (some [["Name", "S", "E"], ["bob", "a", "b"]]) "bob" =
      Except.ok (true, [["Name", "S", "E"]]) ∧
    get_vacation (some [["Name", "S", "E"]]) "bob" = none := by
  have h := (remove_vacation_spec [["Name", "S", "E"], ["bob", "a", "b"]] "bob").2 2 (by decide)
  exact ⟨h.1, (h.2 (by decide)).1⟩

theorem col_values1_eraseIdx (rows : Sheet) (i : Nat) :
    col_values1 (rows.eraseIdx i) = (col_values1 rows).eraseIdx i := by
  induction rows generalizing i with
  | nil => rfl
  | cons row rest ih =>
    cases i with
    | zero => rfl
    | succ k =>
      show col_values1 (row :: rest.eraseIdx k) = _
      show row.headD "" :: col_values1 (rest.eraseIdx k) = _
      rw [ih k]
      rfl

theorem drop_one_eraseIdx_sublist {α : Type} (l : List α) (i : Nat) :
    ((l.eraseIdx i).drop 1).Sublist (l.drop 1) := by
  cases l with
  | nil => simp
  | cons a rest =>
    cases i with
    | zero =>
      show (rest.drop 1).Sublist rest
      exact List.drop_sublist 1 rest
    | succ k =>
      show (rest.eraseIdx k).Sublist rest
      exact List.eraseIdx_sublist rest k

theorem dataNames_eraseIdx_sublist (rows : Sheet) (i : Nat) :
    (dataNames (rows.eraseIdx i)).Sublist (dataNames rows) := by
  unfold dataNames
  rw [col_values1_eraseIdx]
  exact drop_one_eraseIdx_sublist _ i

theorem dataNames_update_cell (rows : Sheet) (r c : Nat) (v : String)
    (hr : r - 1 < rows.length) (hc : 2 ≤ c) :
    dataNames (update_cell rows r c v) = dataNames rows := by
  unfold dataNames
  rw [col_values1_update_cell _ _ _ _ hr hc]

theorem dataNames_append_one (hd : Row) (tl : Sheet) (row : Row) :
    dataNames ((hd :: tl) ++ [row]) = dataNames (hd :: tl) ++ [row.headD ""] := by
  unfold dataNames
  rw [col_values1_append]
  rfl

/-- C7: starting from a store in which at most one data row carries any given
username case-insensitively, both `set_vacation` (update-in-place or append)
and `remove_vacation` (single-row delete) yield a store still satisfying the
invariant. -/
theorem upsert_remove_preserve_uniq : ∀ (rows rows2 : Sheet) (u s e : String) (b : Bool),
    SheetUniq rows →
    (set_vacation (some rows) u s e = Except.ok rows2 → SheetUniq rows2) ∧
    (remove_vacation (some rows) u = Except.ok (b, rows2) → SheetUniq rows2) := by
  intro rows rows2 u s e b hinv
  constructor
  · intro h
    cases hfind : find_row (some rows) u with
    | none =>
      rw [set_vacation] at h
      simp only [hfind] at h
      rw [Except.ok.injEq] at h
      subst h
      show SheetUniq (append_row rows [u, s, e])
      unfold append_row
      cases rows with
      | nil => simp [SheetUniq, dataNames, col_values1]
      | cons hd tl =>
        unfold SheetUniq
        rw [dataNames_append_one]
        rw [List.pairwise_append]
        refine ⟨hinv, List.pairwise_singleton _ _, ?_⟩
        intro a ha bb hbb
        rw [List.mem_singleton] at hbb
        have hbu : bb = u := hbb
        rw [hbu]
        have hmem : a ∈ col_values1 (hd :: tl) := by
          have : dataNames (hd :: tl) ⊆ col_values1 (hd :: tl) := List.drop_subset 1 _
          exact this ha
        have hno : ∀ n ∈ col_values1 (hd :: tl), ¬(n ≠ "" ∧ lower n = lower u) :=
          (findAux_none_iff _ u 1).mp hfind
        intro ha2 hu2 heq
        exact hno a hmem ⟨ha2, by simpa using heq⟩
    | some r =>
      rw [set_vacation] at h
      simp only [hfind] at h
      rw [Except.ok.injEq] at h
      subst h
      obtain ⟨hr1, hr2⟩ := find_row_some_range rows u r hfind
      unfold SheetUniq
      have hlen2 : r - 1 < (update_cell rows r 2 s).length := by
        simpa [update_cell, List.length_set] using hr2
      rw [dataNames_update_cell _ _ _ _ hlen2 (by omega),
          dataNames_update_cell _ _ _ _ hr2 (by omega)]
      exact hinv
  · intro h
    cases hfind : find_row (some rows) u with
    | none =>
      rw [remove_vacation] at h
      simp only [hfind] at h
      rw [Except.ok.injEq, Prod.mk.injEq] at h
      rw [← h.2]
      exact hinv
    | some r =>
      rw [remove_vacation] at h
      simp only [hfind] at h
      rw [Except.ok.injEq, Prod.mk.injEq] at h
      rw [← h.2]
      show SheetUniq (delete_rows rows r)
      unfold delete_rows SheetUniq
      exact List.Pairwise.sublist (dataNames_eraseIdx_sublist rows (r - 1)) hinv

/-- C7 witness: an upsert of a fresh username on a concrete two-row store
preserves the invariant. -/
theorem upsert_remove_preserve_uniq_witness :
    SheetUniq [["Name", "Start", "End"], ["bob", "a", "b"], ["alice", "s", "e"]] :=
  (upsert_remove_preserve_uniq [["Name", "Start", "End"], ["bob", "a", "b"]]
    [["Name", "Start", "End"], ["bob", "a", "b"], ["alice", "s", "e"]]
    "alice" "s" "e" true (by decide)).1 (by decide)

theorem update_twice_form (rows : Sheet) (r : Nat) (s e : String)
    (hr2 : r - 1 < rows.length) :
    update_cell (update_cell rows r 2 s) r 3 e =
      rows.set (r - 1) (setPad (setPad (rows.getD (r - 1) []) 1 s) 2 e) := by
  show (rows.set (r - 1) (setPad (rows.getD (r - 1) []) 1 s)).set (r - 1)
      (setPad ((rows.set (r - 1) (setPad (rows.getD (r - 1) []) 1 s)).getD (r - 1) [])
        2 e) = _
  rw [getD_set_self _ _ _ _ hr2, List.set_set]

/-- C8 counterexample: the claim asks for a username returned character for
character; updating an existing row keeps the stored casing, so upserting
"alice" onto a row stored as "ALICE" and reading it back yields username
"ALICE", not "alice". -/
theorem upsert_get_roundtrip_counterexample :
    set_vacation (some [["Name", "Start", "End"], ["ALICE", "x", "y"]]) "alice"
      "2025-01-01" "2025-01-05" =
      Except.ok [["Name", "Start", "End"], ["ALICE", "2025-01-01", "2025-01-05"]] ∧
    get_vacation (some [["Name", "Start", "End"], ["ALICE", "2025-01-01", "2025-01-05"]])
      "alice" = some ⟨"ALICE", "2025-01-01", "2025-01-05"⟩ ∧
    ("ALICE" : String) ≠ "alice" := by
  decide

/-- C8 (amended): for non-empty arguments, upsert-then-get returns a record
whose start and end equal the arguments character for character and whose
username matches the argument case-insensitively; when the username was not
already present the stored username is the argument itself, verbatim. -/
theorem upsert_get_roundtrip : ∀ (rows : Sheet) (u s e : String),
    u ≠ "" → s ≠ "" → e ≠ "" →
    ∃ rows2, set_vacation (some rows) u s e = Except.ok rows2 ∧
      ∃ v, get_vacation (some rows2) u = some v ∧
        v.start = s ∧ v.«end» = e ∧ lower v.username = lower u ∧
        (find_row (some rows) u = none → v.username = u) := by
  intro rows u s e hu hs he
  cases hfind : find_row (some rows) u with
  | none =>
    refine ⟨rows ++ [[u, s, e]], by simp [set_vacation, hfind, append_row], ?_⟩
    have hfind2 : find_row (some (rows ++ [[u, s, e]])) u = some (rows.length + 1) := by
      show findAux (col_values1 (rows ++ [[u, s, e]])) u 1 = _
      rw [col_values1_append, findAux_append_none _ _ _ _ hfind, col_values1_length]
      show (if u ≠ "" ∧ lower u = lower u then some (1 + rows.length)
        else findAux [] u (1 + rows.length + 1)) = _
      rw [if_pos ⟨hu, rfl⟩, Nat.add_comm]
    have hrow : row_values (rows ++ [[u, s, e]]) (rows.length + 1) = [u, s, e] := by
      unfold row_values
      have hs1 : rows.length + 1 - 1 = rows.length := by omega
      rw [hs1, getD_append_self_length]
    refine ⟨⟨u, s, e⟩, ?_, rfl, rfl, rfl, fun _ => rfl⟩
    simp [get_vacation, hfind2, hrow]
  | some r =>
    obtain ⟨hr1, hr2⟩ := find_row_some_range rows u r hfind
    refine ⟨update_cell (update_cell rows r 2 s) r 3 e, by simp [set_vacation, hfind], ?_⟩
    have hlen2 : r - 1 < (update_cell rows r 2 s).length := by
      simpa [update_cell, List.length_set] using hr2
    have hcol : col_values1 (update_cell (update_cell rows r 2 s) r 3 e) =
        col_values1 rows := by
      rw [col_values1_update_cell _ _ _ _ hlen2 (by omega),
          col_values1_update_cell _ _ _ _ hr2 (by omega)]
    have hfind2 : find_row (some (update_cell (update_cell rows r 2 s) r 3 e)) u = some r := by
      rw [find_row_congr _ rows u hcol]
      exact hfind
    have hdata : row_values (update_cell (update_cell rows r 2 s) r 3 e) r =
        setPad (setPad (rows.getD (r - 1) []) 1 s) 2 e := by
      unfold row_values
      rw [update_twice_form rows r s e hr2]
      exact getD_set_self _ _ _ _ (by simpa using hr2)
    have hdlen : 3 ≤ (setPad (setPad (rows.getD (r - 1) []) 1 s) 2 e).length := by
      rw [setPad_length]
      omega
    refine ⟨⟨(rows.getD (r - 1) []).getD 0 "", s, e⟩, ?_, rfl, rfl, ?_, ?_⟩
    · have h0 : (setPad (setPad (rows.getD (r - 1) []) 1 s) 2 e).getD 0 "" =
          (rows.getD (r - 1) []).getD 0 "" := by
        rw [setPad_getD_ne _ _ _ _ (by omega), setPad_getD_ne _ _ _ _ (by omega)]
      have h1 : (setPad (setPad (rows.getD (r - 1) []) 1 s) 2 e).getD 1 "" = s := by
        rw [setPad_getD_ne _ _ _ _ (by omega), setPad_getD_self]
      have h2 : (setPad (setPad (rows.getD (r - 1) []) 1 s) 2 e).getD 2 "" = e := by
        rw [setPad_getD_self]
      simp only [get_vacation, hfind2, hdata]
      rw [if_neg (Nat.not_lt.mpr hdlen), h0, h1, h2]
    · have hm := find_row_some_matched rows u r hfind
      rw [rowMatches, headD_eq_getD] at hm
      exact hm.2
    · intro hnone
      exact Option.noConfusion hnone

/-- C8 witness: a fresh username round-trips verbatim on a concrete store. -/
theorem upsert_get_roundtrip_witness :
    ∃ rows2, set_vacation (some [["Name", "Start", "End"]]) "bob" "2025-01-01"
        "2025-01-05" = Except.ok rows2 ∧
      ∃ v, get_vacation (some rows2) "bob" = some v ∧
        v.start = "2025-01-01" ∧ v.«end» = "2025-01-05" ∧
        lower v.username = lower "bob" ∧
        (find_row (some [["Name", "Start", "End"]]) "bob" = none → v.username = "bob") :=
  upsert_get_roundtrip [["Name", "Start", "End"]] "bob" "2025-01-01" "2025-01-05"
    (by decide) (by decide) (by decide)

theorem vacation_list_message_branches (vacations : List VacationRecord)
    (hne : vacations ≠ []) :
    ((String.intercalate "\u000A" (vacations.map render_line)).length ≤ 1900 →
      vacation_list_message vacations =
        String.intercalate "\u000A" (vacations.map render_line)) ∧
    (1900 < (String.intercalate "\u000A" (vacations.map render_line)).length →
      vacation_list_message vacations =
        String.intercalate "\u000A" ((vacations.map render_line).take 40) ++
          truncation_marker) := by
  constructor
  · intro hlen
    simp only [vacation_list_message, if_neg hne]
    rw [if_neg (Nat.not_lt.mpr hlen)]
  · intro hlen
    simp only [vacation_list_message, if_neg hne]
    rw [if_pos hlen]

/-- C9: for a non-empty record list, the `/vacation list` reply is the joined
rendered lines whenever that text fits in the 1900-character bound the code
uses for the platform message-size limit, and is otherwise truncated to the
first 40 lines followed by the marker. -/
theorem vacation_list_message_spec : ∀ (vacations : List VacationRecord),
    vacations ≠ [] →
    ((String.intercalate "\u000A" (vacations.map render_line)).length ≤ 1900 →
      vacation_list_message vacations =
        String.intercalate "\u000A" (vacations.map render_line)) ∧
    (1900 < (String.intercalate "\u000A" (vacations.map render_line)).length →
      vacation_list_message vacations =
        String.intercalate "\u000A" ((vacations.map render_line).take 40) ++
          truncation_marker) :=
  fun vacations hne => vacation_list_message_branches vacations hne

/-- C9 witness: a single short record renders untruncated. -/
theorem vacation_list_message_spec_witness :
    vacation_list_message [⟨"bob", "2025-01-01", "2025-01-05"⟩] =
      String.intercalate "\u000A"
        ([⟨"bob", "2025-01-01", "2025-01-05"⟩].map render_line) :=
  (vacation_list_message_spec [⟨"bob", "2025-01-01", "2025-01-05"⟩] (by decide)).1
    (by decide)

/-- C10: truncation is decided only by rendered length, never by entry count:
a list whose joined rendering fits in 1900 characters is shown in full even
with more than 40 entries, while a list of at most 40 entries whose rendering
exceeds 1900 characters gets the marker appended with no entry omitted. -/
theorem truncation_by_length_only : ∀ (vacations : List VacationRecord),
    (40 < vacations.length →
      (String.intercalate "\u000A" (vacations.map render_line)).length ≤ 1900 →
      vacation_list_message vacations =
        String.intercalate "\u000A" (vacations.map render_line)) ∧
    (vacations.length ≤ 40 →
      1900 < (String.intercalate "\u000A" (vacations.map render_line)).length →
      vacation_list_message vacations =
        String.intercalate "\u000A" (vacations.map render_line) ++ truncation_marker) := by
  intro vacations
  constructor
  · intro hcount hlen
    have hne : vacations ≠ [] := by
      intro hc
      rw [hc] at hcount
      simp at hcount
    exact (vacation_list_message_branches vacations hne).1 hlen
  · intro hcount hlen
    have hne : vacations ≠ [] := by
      intro hc
      rw [hc] at hlen
      have : ¬(1900 <
          (String.intercalate "\u000A" (([] : List VacationRecord).map render_line)).length) := by
        decide
      exact this hlen
    have h2 := (vacation_list_message_branches vacations hne).2 hlen
    rw [h2, List.take_of_length_le (by simpa using hcount)]

/-- Forty-one identical short records: more than 40 entries, tiny rendering. -/
def shortRecs : List VacationRecord := List.replicate 41 ⟨"a", "b", "c"⟩

/-- A 1901-character username, pushing a single line over the 1900 bound. -/
def longName : String := String.mk (List.replicate 1901 'a')

/-- C10 witness: 41 short entries render in full with no marker, and one
over-long entry gets the marker with no entry omitted. -/
theorem truncation_by_length_only_witness :
    vacation_list_message shortRecs =
      String.intercalate "\u000A" (shortRecs.map render_line) ∧
    vacation_list_message [⟨longName, "b", "c"⟩] =
      String.intercalate "\u000A" ([⟨longName, "b", "c"⟩].map render_line) ++
        truncation_marker := by
  constructor
  · exact (truncation_by_length_only shortRecs).1 (by decide) (by decide)
  · refine (truncation_by_length_only [⟨longName, "b", "c"⟩]).2 (by decide) ?_
    have he : String.intercalate "\u000A" ([⟨longName, "b", "c"⟩].map render_line) =
        render_line ⟨longName, "b", "c"⟩ := rfl
    rw [he, render_line]
    simp only [String.length_append]
    rw [show longName.length = 1901 from List.length_replicate 1901 'a']
    decide

/-- C6 witness: the store-unavailable error on a concrete upsert. -/
theorem store_unavailable_behavior_witness :
    set_vacation none "bob" "2025-01-01" "2025-01-05" =
      Except.error "Database not connected" :=
  (store_unavailable_behavior "bob" "2025-01-01" "2025-01-05").2.2.2.1
